import Mathlib

/-!
Verification development for the `laurent-2` client library.

The embedding follows the Rust sources:
* `src/codec.rs` — the line codec (`Codec`, `Decoder::decode`, `Encoder::encode`),
  modelled at the byte level: a buffer is a `List Nat` of byte values, and a Rust
  `String` field is represented by its UTF-8 byte sequence.
* `src/utils.rs`, `src/event.rs`, `src/lio.rs`, `src/gw.rs` — frame classification,
  event parsing, wire formatting and the gateway response matchers, modelled at the
  field-string level (`String`).
-/

namespace Laurent

/-! ## Line codec (`src/codec.rs`) -/

/-- Model of `Iterator::position` over a byte slice: index of the first byte satisfying `p`. -/
def position (p : Nat → Bool) : List Nat → Option Nat
  | [] => none
  | b :: rest => if p b then some 0 else (position p rest).map (· + 1)

/-- Model of `without_carriage_return` from `codec.rs`: drop a final `\r` byte if present. -/
def without_carriage_return (s : List Nat) : List Nat :=
  match s.getLast? with
  | some 13 => s.take (s.length - 1)
  | _ => s

/-- A UTF-8 continuation byte (`0x80..=0xBF`). -/
def contByte (b : Nat) : Bool := 128 ≤ b && b ≤ 191

/-- Lower bound for the byte following a multi-byte lead: `0xE0` requires
`0xA0..`, `0xF0` requires `0x90..`, every other lead allows `0x80..`. -/
def firstContLo (b : Nat) : Nat := if b = 224 then 160 else if b = 240 then 144 else 128

/-- Upper bound for the byte following a multi-byte lead: `0xED` allows
`..0x9F` (excluding surrogates), `0xF4` allows `..0x8F` (capping at U+10FFFF),
every other lead allows `..0xBF`. -/
def firstContHi (b : Nat) : Nat := if b = 237 then 159 else if b = 244 then 143 else 191

/-- Admissibility of the byte right after a multi-byte lead `b`. -/
def firstCont (b b1 : Nat) : Bool := firstContLo b ≤ b1 && b1 ≤ firstContHi b

mutual

/-- Validity of a byte sequence as UTF-8, exactly the condition under which Rust's
`str::from_utf8` (the `utf8` helper in `codec.rs`) succeeds: ASCII bytes, 2-byte
sequences led by `0xC2..=0xDF`, 3-byte sequences led by `0xE0..=0xEF` and 4-byte
sequences led by `0xF0..=0xF4`, with the standard overlong/surrogate/out-of-range
exclusions on the byte after the lead. -/
def validUtf8 : List Nat → Bool
  | [] => true
  | b :: rest =>
    if b ≤ 127 then validUtf8 rest
    else if 194 ≤ b && b ≤ 223 then lead2Tail b rest
    else if 224 ≤ b && b ≤ 239 then lead3Tail b rest
    else if 240 ≤ b && b ≤ 244 then lead4Tail b rest
    else false

/-- Continuation of a 2-byte sequence after its lead `b`. -/
def lead2Tail : Nat → List Nat → Bool
  | _, [] => false
  | b, b1 :: rest => firstCont b b1 && validUtf8 rest

/-- Continuation of a 3-byte sequence after its lead `b`. -/
def lead3Tail : Nat → List Nat → Bool
  | _, [] => false
  | _, [_] => false
  | b, b1 :: b2 :: rest => firstCont b b1 && contByte b2 && validUtf8 rest

/-- Continuation of a 4-byte sequence after its lead `b`. -/
def lead4Tail : Nat → List Nat → Bool
  | _, [] => false
  | _, [_] => false
  | _, [_, _] => false
  | b, b1 :: b2 :: b3 :: rest => firstCont b b1 && contByte b2 && contByte b3 && validUtf8 rest

end

/-- The decoder state from `codec.rs` (`struct Codec`). -/
structure Codec where
  next_index : Nat
  max_length : Nat
  is_discarding : Bool
  deriving DecidableEq, Repr

/-- Model of `Codec::new()`. -/
def Codec.new : Codec := ⟨0, 1024, false⟩

/-- Outcome of one `decode` call.  A decoded frame carries its fields as UTF-8 byte
sequences (the bytes of the Rust `Vec<String>`).  `panicMsgTooLong` records that
the call reached `panic!("Message too long")`. -/
inductive DecodeOut where
  | frame (fields : List (List Nat))
  | pending
  | utf8Error
  | panicMsgTooLong
  deriving DecidableEq, Repr

/-- The `loop` body of `Decoder::decode` in `codec.rs`, with explicit fuel (every
iteration that continues the loop consumes at least one buffered byte, so
`src.length + 1` fuel always suffices — see `decode`).  Returns the call outcome,
the updated decoder state, and the remaining buffer. -/
def decodeLoop : Nat → Codec → List Nat → DecodeOut × Codec × List Nat
  | 0, c, src => (.pending, c, src)
  | fuel + 1, c, src =>
    let read_to := min (c.max_length + 1) src.length
    match c.is_discarding,
      position (fun b => b == 10) ((src.drop c.next_index).take (read_to - c.next_index)) with
    | true, some offset =>
      decodeLoop fuel { c with is_discarding := false, next_index := 0 }
        (src.drop (offset + c.next_index + 1))
    | true, none =>
      let src1 := src.drop read_to
      if src1.isEmpty then (.pending, { c with next_index := 0 }, src1)
      else decodeLoop fuel { c with next_index := 0 } src1
    | false, some offset =>
      let newline_index := offset + c.next_index
      let line := src.take (newline_index + 1)
      let rest := src.drop (newline_index + 1)
      let line1 := line.take (line.length - 1)
      let line2 := without_carriage_return line1
      if validUtf8 line2 then
        (.frame (line2.splitOn 44), { c with next_index := 0 }, rest)
      else (.utf8Error, { c with next_index := 0 }, rest)
    | false, none =>
      if src.length > c.max_length then
        (.panicMsgTooLong, { c with is_discarding := true }, src)
      else (.pending, { c with next_index := read_to }, src)

/-- One call of `Decoder::decode` on buffer `src` in state `c`. -/
def decode (c : Codec) (src : List Nat) : DecodeOut × Codec × List Nat :=
  decodeLoop (src.length + 1) c src

/-- Model of `Encoder::encode`: join the fields with `,` (byte 44) and append CR LF
(`put_u16 0x0D0A` writes bytes 13 then 10). -/
def encodeFields (fields : List (List Nat)) : List Nat :=
  List.intercalate [44] fields ++ [13, 10]

/-! ## Errors (`src/err.rs`)

Payloads of wrapped errors are dropped (`Io` wraps a `std::io::Error`, `ParseInt`
a `ParseIntError`, `Recv` a broadcast receive error); `InvalidPayload` keeps its
message string.  `UnexpectedMessage` is the variant `gw.rs` returns for a
well-formed but mismatched reply. -/

inductive Error where
  | Io
  | ParseInt
  | Recv
  | Send
  | Closed
  | SyntaxError
  | UnknownMessage
  | InvalidPayload (msg : String)
  | Auth
  | UnexpectedMessage
  deriving DecidableEq, Repr

/-! ## Signals and events (`src/lio.rs`, `src/event.rs`) -/

inductive Signal where
  | High
  | Low
  deriving DecidableEq, Repr

/-- Model of `Signal::parse`: `"1"` is high, `"0"` is low, anything else is an
invalid-payload error carrying the formatted message. -/
def Signal.parse (value : String) : Except Error Signal :=
  match value with
  | "1" => .ok .High
  | "0" => .ok .Low
  | val => .error (.InvalidPayload
      ("The signal level can only be represented as `0` or `1`. Received: `" ++ val ++ "`"))

/-- Model of Rust's `u32::from_str` (used via `line.parse()` / `time.parse()`): an optional
leading `+`, then one or more ASCII digits, the value fitting in 32 bits.  Every
failure maps to `Error::ParseInt` through the `#[from]` conversion in `err.rs`. -/
def parseU32 (s : String) : Except Error Nat :=
  let digits :=
    match s.toList with
    | '+' :: rest => rest
    | chars => chars
  if digits.isEmpty then .error .ParseInt
  else if digits.all (fun ch => ch.isDigit) then
    let n := digits.foldl (fun acc ch => acc * 10 + (ch.toNat - 48)) 0
    if n < 4294967296 then .ok n else .error .ParseInt
  else .error .ParseInt

/-- The event union from `event.rs` (`Event::Ein`, `Event::Time`). -/
inductive Event where
  | ein (line : Nat) (signal : Signal)
  | time (t : Nat)
  deriving DecidableEq, Repr

/-- Model of `Event::try_from_parts`: match the payload against the known shapes
(`["EIN", line, signal]` and `["TIME", time]`), propagating field-parse errors;
any other shape is `Error::UnknownMessage`. -/
def Event.tryFromParts (msg : List String) : Except Error Event :=
  match msg with
  | ["EIN", lineF, signalF] =>
    match parseU32 lineF with
    | .error e => .error e
    | .ok l =>
      match Signal.parse signalF with
      | .error e => .error e
      | .ok s => .ok (.ein l s)
  | ["TIME", timeF] =>
    match parseU32 timeF with
    | .error e => .error e
    | .ok t => .ok (.time t)
  | _ => .error .UnknownMessage

/-! ## Frame classification and the session loop (`src/utils.rs`, `src/gw.rs`) -/

/-- Model of `is_event` from `utils.rs`. -/
def is_event (part : String) : Bool := part == "#M"

/-- What the session loop in `StreamGateway::connect` does with one decoded
message from the framed stream. -/
inductive SessionAction where
  | publishEvent (e : Event)
  | dropFrame
  | pushResponse (msg : Except Error (List String))
  deriving Repr

/-- The inbound arm of the `tokio::select!` in `StreamGateway::connect`:
a successfully decoded nonempty frame whose first field is the event marker is
parsed as an event and published (or silently dropped if parsing fails); every
other message — response frames, empty frames and decode errors alike — is sent
into the response channel.  No arm breaks the loop. -/
def handleInbound (msg : Except Error (List String)) : SessionAction :=
  match msg with
  | .ok (ty :: rest) =>
    if is_event ty then
      match Event.tryFromParts rest with
      | .ok e => .publishEvent e
      | .error _ => .dropFrame
    else .pushResponse msg
  | _ => .pushResponse msg

/-- Model of `StreamGateway::recv`: a received `Ok` frame is returned; anything else —
a forwarded error or a closed channel (`None`) — becomes `Error::Closed`. -/
def recvResult (received : Option (Except Error (List String))) : Except Error (List String) :=
  match received with
  | some (.ok msg) => .ok msg
  | _ => .error .Closed

/-! ## Wire formatting (`src/lio.rs` Display impls, `src/gw.rs` command builders) -/

inductive RelayAction where
  | on
  | off
  | toggle
  deriving DecidableEq, Repr

/-- The `Display` impl for `RelayAction`. -/
def RelayAction.display : RelayAction → String
  | .on => "1"
  | .off => "0"
  | .toggle => "2"

inductive ClickDelay where
  | millis100 (m : Nat)
  | seconds (s : Nat)
  deriving DecidableEq, Repr

/-- The `Display` impl for `ClickDelay`: `.{m100}` or `{secs}`. -/
def ClickDelay.display : ClickDelay → String
  | .millis100 m => "." ++ Nat.repr m
  | .seconds s => Nat.repr s

/-- Model of `join_parts` (itertools `join(",")`) on already-rendered fields. -/
def joinParts : List String → String
  | [] => ""
  | [p] => p
  | p :: rest => p ++ "," ++ joinParts rest

/-- The fields sent by `StreamGateway::relay`: `("$KE", "REL", relay, action)`
with the delay appended when present, each argument rendered by its `Display`
impl (`u32` renders as decimal). -/
def relayCmdParts (relay : Nat) (action : RelayAction) (delay : Option ClickDelay) :
    List String :=
  match delay with
  | none => ["$KE", "REL", Nat.repr relay, action.display]
  | some d => ["$KE", "REL", Nat.repr relay, action.display, d.display]

/-- The response matching in `StreamGateway::relay_status`: a `["#RDR", rid, on]`
reply first parses `rid` (a parse failure propagates via `?` from the match
guard); a matching id yields `on == "1"`, a mismatched one falls through to the
`["#RDR", _, _]` arm (`UnexpectedMessage`); `["#ERR"]` is a syntax error and any
other shape an unknown message. -/
def relayStatusMatch (relay : Nat) (msg : List String) : Except Error Bool :=
  match msg with
  | ["#RDR", rid, onF] =>
    match parseU32 rid with
    | .error e => .error e
    | .ok r => if r = relay then .ok (onF == "1") else .error .UnexpectedMessage
  | ["#ERR"] => .error .SyntaxError
  | _ => .error .UnknownMessage

/-- UTF-8 bytes of an ASCII field string (used to relate byte-level decoded
frames to field-level strings). -/
def strBytes (s : String) : List Nat := s.toList.map Char.toNat

/-! ## Auxiliary lemmas about `position` -/

theorem position_eq_none {p : Nat → Bool} {A : List Nat} (h : ∀ a ∈ A, p a = false) :
    position p A = none := by
  induction A with
  | nil => rfl
  | cons a t ih =>
    rw [position, if_neg (by simp [h a (List.mem_cons_self a t)]),
      ih (fun x hx => h x (List.mem_cons_of_mem a hx))]
    rfl

theorem position_append_eq_some {p : Nat → Bool} {A : List Nat} {x : Nat} (B : List Nat)
    (h : ∀ a ∈ A, p a = false) (hx : p x = true) :
    position p (A ++ x :: B) = some A.length := by
  induction A with
  | nil => simp [position, hx]
  | cons a t ih =>
    rw [List.cons_append, position, if_neg (by simp [h a (List.mem_cons_self a t)]),
      ih (fun y hy => h y (List.mem_cons_of_mem a hy))]
    simp

theorem position_take {p : Nat → Bool} {l : List Nat} {i n : Nat}
    (h : position p l = some i) (hn : i < n) :
    position p (l.take n) = some i := by
  induction l generalizing i n with
  | nil => simp [position] at h
  | cons a t ih =>
    rw [position] at h
    by_cases hpa : p a
    · rw [if_pos hpa] at h
      cases n with
      | zero => omega
      | succ m =>
        rw [List.take_succ_cons, position, if_pos hpa]
        exact h
    · rw [if_neg hpa] at h
      cases hpt : position p t with
      | none => rw [hpt] at h; simp at h
      | some j =>
        rw [hpt] at h
        simp only [Option.map_some'] at h
        have hij : j + 1 = i := by simpa using h
        cases n with
        | zero => omega
        | succ m =>
          rw [List.take_succ_cons, position, if_neg hpa, ih hpt (by omega)]
          simpa using hij

/-! ## Auxiliary lemmas about line extraction -/

theorem without_carriage_return_concat (L : List Nat) :
    without_carriage_return (L ++ [13]) = L := by
  simp [without_carriage_return, List.getLast?_concat]

/-- One `decode` call on a fresh-state codec whose buffer starts with a complete
CRLF-terminated line that fits the scan window: the line is extracted, stripped
of its terminator, split on commas, and exactly its bytes are consumed. -/
theorem decode_line (L rest : List Nat) (hlen : L.length ≤ 1023)
    (h10 : (10 : Nat) ∉ L) (hv : validUtf8 L = true) :
    decode ⟨0, 1024, false⟩ (L ++ 13 :: 10 :: rest) =
      (.frame (L.splitOn 44), ⟨0, 1024, false⟩, rest) := by
  have hsrc : L ++ 13 :: 10 :: rest = (L ++ [13]) ++ 10 :: rest := by simp
  have hA : ∀ a ∈ L ++ [13], (a == 10) = false := by
    intro a ha
    rcases List.mem_append.mp ha with h1 | h1
    · simp only [beq_eq_false_iff_ne]
      intro hEq
      exact h10 (hEq ▸ h1)
    · simp at h1
      simp [h1]
  have hpos : position (fun b => b == 10) (L ++ 13 :: 10 :: rest) = some (L.length + 1) := by
    rw [hsrc]
    have := position_append_eq_some (p := fun b => b == 10) (x := 10) (10 :: rest |> fun z => rest)
      hA (by simp)
    simpa using this
  have hlen2 : (L ++ 13 :: 10 :: rest).length = L.length + 2 + rest.length := by
    simp
    omega
  have hwin : L.length + 1 < min (1024 + 1) (L ++ 13 :: 10 :: rest).length := by
    rw [Nat.lt_min]
    constructor
    · omega
    · rw [hlen2]; omega
  rw [decode, decodeLoop]
  simp only [List.drop_zero, Nat.sub_zero]
  rw [position_take hpos hwin]
  simp only []
  have hsplit2 : L ++ 13 :: 10 :: rest = (L ++ [13, 10]) ++ rest := by simp
  have htake : (L ++ 13 :: 10 :: rest).take (L.length + 1 + 0 + 1) = L ++ [13, 10] := by
    rw [hsplit2]
    exact List.take_left' (by simp)
  have hdrop : (L ++ 13 :: 10 :: rest).drop (L.length + 1 + 0 + 1) = rest := by
    rw [hsplit2]
    exact List.drop_left' (by simp)
  rw [htake, hdrop]
  have hsplit3 : L ++ [13, 10] = (L ++ [13]) ++ [10] := by simp
  have htake2 : (L ++ [13, 10]).take ((L ++ [13, 10]).length - 1) = L ++ [13] := by
    rw [hsplit3]
    refine List.take_left' ?_
    simp
  rw [htake2, without_carriage_return_concat, hv]
  simp

/-! ## UTF-8 validity is closed under concatenation -/

theorem validUtf8_append_aux :
    ∀ n (a b : List Nat), a.length ≤ n → validUtf8 a = true → validUtf8 b = true →
      validUtf8 (a ++ b) = true := by
  intro n
  induction n with
  | zero =>
    intro a b hlen ha hb
    rcases a with _ | ⟨x, rest⟩
    · simpa using hb
    · simp at hlen
  | succ m ih =>
    intro a b hlen ha hb
    rcases a with _ | ⟨x, rest⟩
    · simpa using hb
    · simp only [List.length_cons] at hlen
      rw [validUtf8] at ha
      rw [List.cons_append, validUtf8]
      split_ifs at ha ⊢ with h1 h2 h3 h4
      · exact ih rest b (by omega) ha hb
      · rcases rest with _ | ⟨b1, rest1⟩
        · rw [lead2Tail] at ha; simp at ha
        · rw [lead2Tail] at ha
          rw [List.cons_append, lead2Tail]
          simp only [Bool.and_eq_true] at ha ⊢
          exact ⟨ha.1, ih rest1 b (by simp at hlen; omega) ha.2 hb⟩
      · rcases rest with _ | ⟨b1, _ | ⟨b2, rest2⟩⟩
        · rw [lead3Tail] at ha; simp at ha
        · rw [lead3Tail] at ha; simp at ha
        · rw [lead3Tail] at ha
          rw [List.cons_append, List.cons_append, lead3Tail]
          simp only [Bool.and_eq_true] at ha ⊢
          exact ⟨ha.1, ih rest2 b (by simp at hlen; omega) ha.2 hb⟩
      · rcases rest with _ | ⟨b1, _ | ⟨b2, _ | ⟨b3, rest3⟩⟩⟩
        · rw [lead4Tail] at ha; simp at ha
        · rw [lead4Tail] at ha; simp at ha
        · rw [lead4Tail] at ha; simp at ha
        · rw [lead4Tail] at ha
          rw [List.cons_append, List.cons_append, List.cons_append, lead4Tail]
          simp only [Bool.and_eq_true] at ha ⊢
          exact ⟨ha.1, ih rest3 b (by simp at hlen; omega) ha.2 hb⟩

theorem validUtf8_append {a b : List Nat} (ha : validUtf8 a = true)
    (hb : validUtf8 b = true) : validUtf8 (a ++ b) = true :=
  validUtf8_append_aux a.length a b (Nat.le_refl _) ha hb

/-! ## Joining fields with commas -/

theorem intercalate_nil (s : List Nat) : List.intercalate s ([] : List (List Nat)) = [] := by
  simp [List.intercalate]

theorem intercalate_single (s : List Nat) (f : List Nat) :
    List.intercalate s [f] = f := by
  simp [List.intercalate]

theorem intercalate_cons₂ (s : List Nat) (f g : List Nat) (t : List (List Nat)) :
    List.intercalate s (f :: g :: t) = f ++ s ++ List.intercalate s (g :: t) := by
  simp [List.intercalate, List.intersperse_cons_cons, List.flatten]

theorem validUtf8_intercalate (fields : List (List Nat))
    (h : ∀ f ∈ fields, validUtf8 f = true) :
    validUtf8 (List.intercalate [44] fields) = true := by
  induction fields with
  | nil => rw [intercalate_nil]; rfl
  | cons f t ih =>
    rcases t with _ | ⟨g, t'⟩
    · rw [intercalate_single]
      exact h f (by simp)
    · rw [intercalate_cons₂]
      refine validUtf8_append (validUtf8_append (h f (by simp)) (by decide)) ?_
      exact ih (fun x hx => h x (List.mem_cons_of_mem f hx))

theorem not_mem_intercalate {b : Nat} (fields : List (List Nat))
    (hb : b ≠ 44) (h : ∀ f ∈ fields, b ∉ f) :
    b ∉ List.intercalate [44] fields := by
  induction fields with
  | nil => rw [intercalate_nil]; simp
  | cons f t ih =>
    rcases t with _ | ⟨g, t'⟩
    · rw [intercalate_single]
      exact h f (by simp)
    · rw [intercalate_cons₂]
      intro hmem
      rcases List.mem_append.mp hmem with h1 | h1
      · rcases List.mem_append.mp h1 with h2 | h2
        · exact h f (by simp) h2
        · simp at h2
          exact hb h2
      · exact ih (fun x hx => h x (List.mem_cons_of_mem f hx)) h1

/-- A fresh-state `decode` call on a buffer longer than `max_length` whose first
`max_length + 1` bytes contain no line feed reaches
`panic!("Message too long")`, with `is_discarding` already set. -/
theorem decode_too_long (src : List Nat) (hlen : src.length > 1024)
    (h10 : ∀ a ∈ src.take 1025, (a == 10) = false) :
    decode ⟨0, 1024, false⟩ src = (.panicMsgTooLong, ⟨0, 1024, true⟩, src) := by
  rw [decode, decodeLoop]
  have hmin : min (1024 + 1) src.length = 1025 := by omega
  simp only [List.drop_zero, Nat.sub_zero, hmin]
  rw [position_eq_none h10]
  simp only [gt_iff_lt]
  rw [if_pos hlen]

/-! ## Claim theorems -/

/-- Claim C3 (amended).  For every nonempty sequence of fields — each the UTF-8
byte form of a Rust string free of comma, carriage return and line feed — whose
comma-joined line is at most `max_length - 1 = 1023` bytes (so the line feed
falls inside the decoder's scan window), encoding the fields and then decoding
the produced bytes with a fresh codec yields exactly the original field
sequence and consumes exactly the bytes `encode` produced, leaving the buffer
empty. -/
theorem c3_encode_decode_roundtrip (fields : List (List Nat))
    (hne : fields ≠ [])
    (hval : ∀ f ∈ fields, validUtf8 f = true)
    (hsep : ∀ f ∈ fields, (44 : Nat) ∉ f)
    (_hcr : ∀ f ∈ fields, (13 : Nat) ∉ f)
    (hlf : ∀ f ∈ fields, (10 : Nat) ∉ f)
    (hlen : (List.intercalate [44] fields).length ≤ 1023) :
    decode Codec.new (encodeFields fields) = (.frame fields, Codec.new, []) := by
  have h10 : (10 : Nat) ∉ List.intercalate [44] fields :=
    not_mem_intercalate fields (by decide) hlf
  have hv : validUtf8 (List.intercalate [44] fields) = true :=
    validUtf8_intercalate fields hval
  have hline := decode_line (List.intercalate [44] fields) [] hlen h10 hv
  rw [show Codec.new = (⟨0, 1024, false⟩ : Codec) from rfl, encodeFields,
    show List.intercalate [44] fields ++ [13, 10] =
      List.intercalate [44] fields ++ 13 :: 10 :: ([] : List Nat) from rfl,
    hline, List.splitOn_intercalate fields 44 hsep hne]

/-- Claim C3 fails as originally stated: a single comma/CR/LF-free field of 1025
bytes encodes to a line whose feed lies beyond the scan window, and the first
decode call panics instead of returning the field sequence. -/
theorem c3_roundtrip_counterexample :
    decode Codec.new (encodeFields [List.replicate 1025 97]) =
      (.panicMsgTooLong, ⟨0, 1024, true⟩, List.replicate 1025 97 ++ [13, 10]) ∧
    DecodeOut.panicMsgTooLong ≠ DecodeOut.frame [List.replicate 1025 97] := by
  constructor
  · rw [show encodeFields [List.replicate 1025 97] = List.replicate 1025 97 ++ [13, 10] by
        rw [encodeFields, intercalate_single]]
    refine decode_too_long _ (by rw [List.length_append, List.length_replicate]; decide) ?_
    rw [List.take_left' (by rw [List.length_replicate])]
    intro a ha
    have := List.eq_of_mem_replicate ha
    simp [this]
  · decide

/-- Witness for `c3_encode_decode_roundtrip` at the concrete field sequence
`["HI", "J"]` (bytes `[72, 73]` and `[74]`). -/
theorem c3_roundtrip_witness :
    decode Codec.new (encodeFields [[72, 73], [74]]) =
      (.frame [[72, 73], [74]], Codec.new, []) :=
  c3_encode_decode_roundtrip [[72, 73], [74]] (by decide) (by decide) (by decide)
    (by decide) (by decide) (by decide)

/-- Claim C5 (amended).  For every two lines of fields — each sequence nonempty,
each field the UTF-8 byte form of a Rust string free of comma/CR/LF, each
comma-joined line at most 1023 bytes — whose encodings are concatenated into one
buffer, two successive decode calls on a fresh codec return the first frame and
then the second, in that order, unmerged: the first call consumes exactly the
first encoded line and returns its fields, handing the second call the exact
state and remaining buffer that produce the second frame. -/
theorem c5_two_concatenated_lines (f1 f2 : List (List Nat))
    (hne1 : f1 ≠ []) (hne2 : f2 ≠ [])
    (hval1 : ∀ f ∈ f1, validUtf8 f = true) (hval2 : ∀ f ∈ f2, validUtf8 f = true)
    (hsep1 : ∀ f ∈ f1, (44 : Nat) ∉ f) (hsep2 : ∀ f ∈ f2, (44 : Nat) ∉ f)
    (hlf1 : ∀ f ∈ f1, (10 : Nat) ∉ f) (hlf2 : ∀ f ∈ f2, (10 : Nat) ∉ f)
    (hlen1 : (List.intercalate [44] f1).length ≤ 1023)
    (hlen2 : (List.intercalate [44] f2).length ≤ 1023) :
    decode Codec.new (encodeFields f1 ++ encodeFields f2) =
      (.frame f1, Codec.new, encodeFields f2) ∧
    decode Codec.new (encodeFields f2) = (.frame f2, Codec.new, []) := by
  have hnew : Codec.new = (⟨0, 1024, false⟩ : Codec) := rfl
  constructor
  · have h10 : (10 : Nat) ∉ List.intercalate [44] f1 :=
      not_mem_intercalate f1 (by decide) hlf1
    have hv : validUtf8 (List.intercalate [44] f1) = true := validUtf8_intercalate f1 hval1
    have hline := decode_line (List.intercalate [44] f1) (encodeFields f2) hlen1 h10 hv
    rw [hnew, encodeFields,
      show (List.intercalate [44] f1 ++ [13, 10]) ++ encodeFields f2 =
        List.intercalate [44] f1 ++ 13 :: 10 :: encodeFields f2 by simp,
      hline, List.splitOn_intercalate f1 44 hsep1 hne1]
  · have h10 : (10 : Nat) ∉ List.intercalate [44] f2 :=
      not_mem_intercalate f2 (by decide) hlf2
    have hv : validUtf8 (List.intercalate [44] f2) = true := validUtf8_intercalate f2 hval2
    have hline := decode_line (List.intercalate [44] f2) [] hlen2 h10 hv
    rw [hnew, encodeFields,
      show List.intercalate [44] f2 ++ [13, 10] =
        List.intercalate [44] f2 ++ 13 :: 10 :: ([] : List Nat) from rfl,
      hline, List.splitOn_intercalate f2 44 hsep2 hne2]

/-- Claim C5 fails as originally stated: if the first line's fields total 1024
comma/CR/LF-free bytes, its line feed already falls outside the scan window and
the first decode call on the concatenated buffer panics instead of returning
the first frame. -/
theorem c5_two_lines_counterexample :
    decode Codec.new (encodeFields [List.replicate 1024 98] ++ encodeFields [[65]]) =
      (.panicMsgTooLong, ⟨0, 1024, true⟩,
        List.replicate 1024 98 ++ [13, 10, 65, 13, 10]) ∧
    DecodeOut.panicMsgTooLong ≠ DecodeOut.frame [List.replicate 1024 98] := by
  constructor
  · rw [show encodeFields [List.replicate 1024 98] ++ encodeFields [[65]] =
        List.replicate 1024 98 ++ [13, 10, 65, 13, 10] by
      rw [encodeFields, intercalate_single, encodeFields, intercalate_single,
        List.append_assoc]
      rfl]
    refine decode_too_long _ (by rw [List.length_append, List.length_replicate]; decide) ?_
    rw [List.take_append_eq_append_take, List.take_of_length_le (by rw [List.length_replicate]; omega),
      List.length_replicate]
    intro a ha
    rcases List.mem_append.mp ha with h1 | h1
    · have := List.eq_of_mem_replicate h1
      simp [this]
    · rw [show (1025 - 1024 : Nat) = 1 from rfl] at h1
      simp at h1
      simp [h1]
  · decide

/-- Witness for `c5_two_concatenated_lines` at the concrete lines
`["A"]` (bytes `[[65]]`) and `["BC", "D"]` (bytes `[[66, 67], [68]]`). -/
theorem c5_two_lines_witness :
    decode Codec.new (encodeFields [[65]] ++ encodeFields [[66, 67], [68]]) =
      (.frame [[65]], Codec.new, encodeFields [[66, 67], [68]]) ∧
    decode Codec.new (encodeFields [[66, 67], [68]]) =
      (.frame [[66, 67], [68]], Codec.new, []) :=
  c5_two_concatenated_lines [[65]] [[66, 67], [68]] (by decide) (by decide) (by decide)
    (by decide) (by decide) (by decide) (by decide) (by decide) (by decide) (by decide)

/-- Claim C1, evaluated at the failing input.  With a fresh codec and a buffer
holding an over-length line (1025 bytes, no line feed within the
`max_length + 1`-byte scan window) followed by the complete short line
`"B\r\n"`, the first decode call reaches `panic!("Message too long")` instead
of entering discard-and-resync; the `is_discarding` flag is set just before the
panic.  Had the call instead returned (as the ported tokio-util code does),
the very next call from that state would discard the over-length line and
deliver the short frame `["B"]` — the second conjunct shows the discard logic
itself is intact, so the panic is the sole deviation. -/
theorem c1_overlong_line_panics :
    decode Codec.new (List.replicate 1025 97 ++ [10, 66, 13, 10]) =
      (.panicMsgTooLong, ⟨0, 1024, true⟩, List.replicate 1025 97 ++ [10, 66, 13, 10]) ∧
    decode ⟨0, 1024, true⟩ (List.replicate 1025 97 ++ [10, 66, 13, 10]) =
      (.frame [[66]], ⟨0, 1024, false⟩, []) := by
  have hrep10 : ∀ a ∈ List.replicate 1025 (97 : Nat), (a == 10) = false := by
    intro a ha
    have := List.eq_of_mem_replicate ha
    simp [this]
  have htk : (List.replicate 1025 97 ++ [10, 66, 13, 10]).take 1025 =
      List.replicate 1025 (97 : Nat) :=
    List.take_left' (by rw [List.length_replicate])
  constructor
  · refine decode_too_long _ (by rw [List.length_append, List.length_replicate]; decide) ?_
    rw [htk]
    exact hrep10
  · have hL : (List.replicate 1025 97 ++ [10, 66, 13, 10]).length = 1029 := by
      rw [List.length_append, List.length_replicate]
      decide
    have hdp : (List.replicate 1025 97 ++ [10, 66, 13, 10]).drop 1025 = [10, 66, 13, 10] :=
      List.drop_left' (by rw [List.length_replicate])
    rw [decode, hL, decodeLoop]
    simp only [hL, List.drop_zero, Nat.sub_zero]
    rw [show min (1024 + 1) 1029 = 1025 by decide, htk, position_eq_none hrep10]
    simp only [hdp]
    decide

/-- Claim C10.  Every frame produced by any `decode` call, from any state, on any
buffer, holds at least one field (splitting on commas never yields an empty
field list); in particular a buffer holding just `"\r\n"` — or a bare `"\n"` —
decodes to the one-field frame whose single field is the empty string. -/
theorem c10_frames_nonempty :
    (∀ (c : Codec) (src : List Nat) (fields : List (List Nat)) (c2 : Codec)
      (rest : List Nat), decode c src = (.frame fields, c2, rest) → fields ≠ []) ∧
    decode Codec.new [13, 10] = (.frame [[]], Codec.new, []) ∧
    decode Codec.new [10] = (.frame [[]], Codec.new, []) := by
  refine ⟨?_, by decide, by decide⟩
  have key : ∀ (fuel : Nat) (c : Codec) (src : List Nat) (fields : List (List Nat))
      (c2 : Codec) (rest : List Nat),
      decodeLoop fuel c src = (.frame fields, c2, rest) → fields ≠ [] := by
    intro fuel
    induction fuel with
    | zero =>
      intro c src fields c2 rest h
      rw [decodeLoop] at h
      simp at h
    | succ n ih =>
      intro c src fields c2 rest h
      rw [decodeLoop] at h
      simp only [] at h
      split at h
      · exact ih _ _ _ _ _ h
      · split at h
        · simp at h
        · exact ih _ _ _ _ _ h
      · split at h
        · simp only [Prod.mk.injEq] at h
          obtain ⟨h1, -⟩ := h
          intro hnil
          rw [hnil] at h1
          simp only [DecodeOut.frame.injEq] at h1
          exact absurd h1 (by rw [List.splitOn]; exact List.splitOnP_ne_nil _ _)
        · simp at h
      · split at h
        · simp at h
        · simp at h
  intro c src fields c2 rest h
  exact key _ _ _ _ _ _ h

/-- Witness for the universally quantified part of `c10_frames_nonempty`,
instantiated at the decode of a bare `"\r\n"` buffer. -/
theorem c10_frames_nonempty_witness : ([[]] : List (List Nat)) ≠ [] :=
  c10_frames_nonempty.1 Codec.new [13, 10] [[]] Codec.new [] (by decide)

/-- The behaviour of the session loop on a decoded event-marker frame:
parseable payloads are published, unparseable ones silently dropped. -/
theorem handleInbound_marker (rest : List String) :
    handleInbound (.ok ("#M" :: rest)) =
      match Event.tryFromParts rest with
      | .ok e => .publishEvent e
      | .error _ => .dropFrame := by
  simp [handleInbound, is_event]

/-- The behaviour of the session loop on a decoded non-event frame. -/
theorem handleInbound_response (ty : String) (rest : List String) (hty : ty ≠ "#M") :
    handleInbound (.ok (ty :: rest)) = .pushResponse (.ok (ty :: rest)) := by
  simp [handleInbound, is_event, hty]

/-- Claim C4.  A decoded frame is published to the event bus only if its first
field is the reserved marker `"#M"`, and pushed into the response channel only
if its first field is not the marker: marker frames are never delivered as
responses, and non-marker frames never reach the bus. -/
theorem c4_event_marker_classification (ty : String) (rest : List String) :
    (ty = "#M" → ∀ r, handleInbound (.ok (ty :: rest)) ≠ SessionAction.pushResponse r) ∧
    (ty ≠ "#M" → ∀ e, handleInbound (.ok (ty :: rest)) ≠ SessionAction.publishEvent e) ∧
    (∀ e, handleInbound (.ok (ty :: rest)) = SessionAction.publishEvent e → ty = "#M") ∧
    (∀ r, handleInbound (.ok (ty :: rest)) = SessionAction.pushResponse r → ty ≠ "#M") := by
  by_cases hty : ty = "#M"
  · subst hty
    refine ⟨fun _ r => ?_, fun h => absurd rfl h, fun _ _ => rfl, fun r hr => ?_⟩
    · rw [handleInbound_marker]
      cases Event.tryFromParts rest <;> simp
    · exfalso
      rw [handleInbound_marker] at hr
      rcases htp : Event.tryFromParts rest with e2 | e2 <;> rw [htp] at hr <;> simp at hr
  · refine ⟨fun h => absurd h hty, fun _ e => ?_, fun e he => ?_, fun _ _ => hty⟩
    · rw [handleInbound_response ty rest hty]
      simp
    · rw [handleInbound_response ty rest hty] at he
      simp at he

/-- Witness for `c4_event_marker_classification`: the marker frame
`["#M", "EIN", "1", "1"]` is not pushed as a response, and the response frame
`["#RDR", "3", "1"]` is not published as an event. -/
theorem c4_event_marker_classification_witness :
    handleInbound (.ok ["#M", "EIN", "1", "1"]) ≠
      SessionAction.pushResponse (.ok ["#M", "EIN", "1", "1"]) ∧
    handleInbound (.ok ["#RDR", "3", "1"]) ≠
      SessionAction.publishEvent (.ein 3 .High) :=
  ⟨(c4_event_marker_classification "#M" ["EIN", "1", "1"]).1 rfl _,
    (c4_event_marker_classification "#RDR" ["3", "1"]).2.1 (by decide) _⟩

/-- Claim C9.  A decoded frame whose first field is the event marker but whose
payload fails to parse as a known event is silently dropped by the session
loop: it is neither published to the event bus nor pushed into the response
channel (the `dropFrame` action), and no arm of the loop's match breaks the
loop, which continues with the next frame. -/
theorem c9_unparseable_event_dropped (rest : List String) (e : Error)
    (h : Event.tryFromParts rest = .error e) :
    handleInbound (.ok ("#M" :: rest)) = SessionAction.dropFrame := by
  rw [handleInbound_marker, h]

/-- Witness for `c9_unparseable_event_dropped` at the unknown payload
`["XXX"]`. -/
theorem c9_unparseable_event_dropped_witness :
    handleInbound (.ok ["#M", "XXX"]) = SessionAction.dropFrame :=
  c9_unparseable_event_dropped ["XXX"] .UnknownMessage rfl

/-- Claim C2, evaluated at the failing input.  When the codec reports a decode
failure (for example the invalid-UTF-8 line `[0xFF, 0x0D, 0x0A]`, which
`decode` turns into an I/O-format error), the session loop does *not* stop:
the error lands in the catch-all match arm and is forwarded into the response
channel like any response, so only the single caller blocked in `recv` observes
`Error::Closed`, while the loop, the transport and every other caller continue
unaffected.  A closed channel (`None`) also maps to `Error::Closed`. -/
theorem c2_decode_error_not_terminal :
    (decode Codec.new [255, 13, 10]).1 = DecodeOut.utf8Error ∧
    (∀ e : Error, handleInbound (.error e) = SessionAction.pushResponse (.error e)) ∧
    recvResult (some (.error .Io)) = .error .Closed ∧
    recvResult none = .error .Closed := by
  refine ⟨by decide, fun e => rfl, rfl, rfl⟩

/-- The payload shapes `Event::try_from_parts` recognises. -/
def knownEventShape (msg : List String) : Bool :=
  match msg with
  | ["EIN", _, _] => true
  | ["TIME", _] => true
  | _ => false

/-- Claim C6.  Classified event payloads: an `["EIN", line, signal]` payload with
a parseable `u32` line and signal `"0"`/`"1"` parses to the digital-input
event with that line and level; a payload outside the known shapes fails with
the unknown-message error; a known-shape payload whose numeric field is
malformed fails with the propagated numeric-parse error (which is always
`Error.ParseInt`). -/
theorem c6_event_payload_parsing :
    (∀ (lineS : String) (n : Nat) (sig : String), parseU32 lineS = .ok n →
      sig = "0" ∨ sig = "1" →
      Event.tryFromParts ["EIN", lineS, sig] =
        .ok (.ein n (if sig = "1" then .High else .Low))) ∧
    (∀ msg : List String, knownEventShape msg = false →
      Event.tryFromParts msg = .error .UnknownMessage) ∧
    (∀ (lineS sig : String) (e : Error), parseU32 lineS = .error e →
      Event.tryFromParts ["EIN", lineS, sig] = .error e) ∧
    (∀ (timeS : String) (e : Error), parseU32 timeS = .error e →
      Event.tryFromParts ["TIME", timeS] = .error e) ∧
    (∀ (s : String) (e : Error), parseU32 s = .error e → e = .ParseInt) := by
  refine ⟨?_, ?_, ?_, ?_, ?_⟩
  · intro lineS n sig hn hsig
    rcases hsig with h | h <;> subst h <;> simp [Event.tryFromParts, hn, Signal.parse]
  · intro msg hshape
    rw [Event.tryFromParts.eq_def]
    split
    · simp [knownEventShape] at hshape
    · simp [knownEventShape] at hshape
    · rfl
  · intro lineS sig e he
    simp [Event.tryFromParts, he]
  · intro timeS e he
    simp [Event.tryFromParts, he]
  · intro s e he
    rw [parseU32] at he
    simp only [] at he
    split_ifs at he <;> simp_all

/-- Witness for `c6_event_payload_parsing`: `["EIN", "7", "1"]` parses to the
line-7 high event, `["FOO"]` is unknown, and `["EIN", "x", "1"]` fails with
the numeric-parse error. -/
theorem c6_event_payload_parsing_witness :
    Event.tryFromParts ["EIN", "7", "1"] = .ok (.ein 7 .High) ∧
    Event.tryFromParts ["FOO"] = .error .UnknownMessage ∧
    Event.tryFromParts ["EIN", "x", "1"] = .error .ParseInt :=
  ⟨c6_event_payload_parsing.1 "7" 7 "1" rfl (Or.inr rfl),
    c6_event_payload_parsing.2.1 ["FOO"] rfl,
    c6_event_payload_parsing.2.2.1 "x" "1" .ParseInt rfl⟩

/-- Claim C7.  Decoding the inbound bytes of `"#RDR,3,1\r\n"` yields the frame
`["#RDR", "3", "1"]`, on which a `relay_status(3)` call returns `true`; the
same matching against the well-formed but mismatched frame `["#RDR", "1", "1"]`
fails with the unexpected-message error. -/
theorem c7_relay_status_matching :
    decode Codec.new [35, 82, 68, 82, 44, 51, 44, 49, 13, 10] =
      (.frame [strBytes "#RDR", strBytes "3", strBytes "1"], Codec.new, []) ∧
    relayStatusMatch 3 ["#RDR", "3", "1"] = .ok true ∧
    relayStatusMatch 3 ["#RDR", "1", "1"] = .error .UnexpectedMessage := by
  refine ⟨by decide, rfl, rfl⟩

/-- Claim C8.  Every relay command built by the gateway consists of the selector
`"$KE"`, the keyword `"REL"`, the relay id rendered as decimal text, the fixed
action code (on = `"1"`, off = `"0"`, toggle = `"2"`), and — when present — the
click-delay rendered either as `"."` followed by the hundred-millisecond count
or as the plain decimal seconds count, in exactly that order; joining the
fields with commas gives the wire line, as the concrete lines illustrate. -/
theorem c8_relay_command_format :
    (∀ (relay : Nat) (action : RelayAction) (delay : Option ClickDelay),
      relayCmdParts relay action delay =
        ["$KE", "REL", Nat.repr relay,
          match action with
          | .on => "1"
          | .off => "0"
          | .toggle => "2"] ++
        (match delay with
         | none => []
         | some (.millis100 m) => ["." ++ Nat.repr m]
         | some (.seconds sec) => [Nat.repr sec])) ∧
    joinParts (relayCmdParts 2 .on none) = "$KE,REL,2,1" ∧
    joinParts (relayCmdParts 2 .on (some (.millis100 15))) = "$KE,REL,2,1,.15" ∧
    joinParts (relayCmdParts 7 .toggle (some (.seconds 3))) = "$KE,REL,7,2,3" := by
  refine ⟨?_, rfl, rfl, rfl⟩
  intro relay action delay
  cases action <;> rcases delay with _ | (⟨m⟩ | ⟨sec⟩) <;> rfl

end Laurent
